import Mathlib

/-!
Verification development for the reddit-scraper repository.

The embedded code is the keyword match / post-filter evaluator:
  - `EnhancedRedditScraper.scrape_subreddit` (enhanced_scraper.py, lines 72-124):
    the per-submission matching loop, embedded as `processSubmission` and
    `scrapeSubreddit`.  The upstream fetch (lines 56-69: sort selection and
    limit) is the external API client; its output sequence of submissions is
    the `submissions` input here.
  - `EnhancedRedditScraper.search_multiple_subreddits` (lines 126-144),
    embedded as `searchMultipleSubreddits` over an API world function.
  - `filter_results` (advanced_scraper_ui.py, lines 84-114), embedded as
    `filterResults`; the `datetime.strptime` call that can raise is embedded
    as an `Option`-returning parser, with `none` propagating like the raised
    exception.

Machine integers of the source are Python arbitrary-precision ints, so `Int`
is used directly.  Python strings are Lean `String`; `str.lower()` is
`pyLower` and the substring test `a in b` is `pyIn`.
-/

/-- Python list-of-chars prefix test: true iff the first list is a prefix of
the second. -/
def isPrefixChars : List Char → List Char → Bool
  | [], _ => true
  | _ :: _, [] => false
  | c :: cs, d :: ds => c == d && isPrefixChars cs ds

/-- Python substring test on char lists: true iff the needle occurs
contiguously in the haystack.  The empty needle occurs in every haystack,
as the Python `in` operator has it. -/
def isSubChars (needle : List Char) : List Char → Bool
  | [] => isPrefixChars needle []
  | d :: ds => isPrefixChars needle (d :: ds) || isSubChars needle ds

/-- Python `needle in haystack` on strings: contiguous substring test. -/
def pyIn (needle haystack : String) : Bool :=
  isSubChars needle.data haystack.data

/-- Python `s.lower()`: lower-case every character. -/
def pyLower (s : String) : String :=
  String.mk (s.data.map Char.toLower)

/-- The keyword comprehension of enhanced_scraper.py lines 78, 82 and 91:
`any(keyword.lower() in text.lower() for keyword in keywords)`. -/
def anyKeywordIn (keywords : List String) (text : String) : Bool :=
  keywords.any (fun k => pyIn (pyLower k) (pyLower text))

/-- A comment as delivered by the API client (`comment` objects of praw).
`author` is `none` for a deleted account; `str(author)` then renders the
placeholder "None". -/
structure CommentIn where
  author : Option String
  body : String
  score : Int
  createdUtc : Nat
deriving DecidableEq

/-- A submission as delivered by the API client, with its flattened comment
list (the result of `submission.comments.list()` after `replace_more`).
`upvoteRatio` is a float in the source; no claim reads its value, so it is
carried as an opaque integer copied verbatim into the output record. -/
structure Submission where
  title : String
  selftext : String
  url : String
  score : Int
  id : String
  author : Option String
  createdUtc : Nat
  upvoteRatio : Int
  numComments : Int
  permalink : String
  comments : List CommentIn
deriving DecidableEq

/-- Python `str(author)`: the account name, or the literal "None" for a
missing account. -/
def strAuthor : Option String → String
  | some a => a
  | none => "None"

/-- Opaque model of `datetime.fromtimestamp(ts).strftime('%Y-%m-%d %H:%M:%S')`
(local-time stdlib formatting).  No claim depends on the rendered string, so
the timestamp is rendered injectively but without calendar arithmetic. -/
def formatTimestamp (ts : Nat) : String :=
  toString ts

/-- The comment dictionary built at enhanced_scraper.py lines 93-98. -/
structure CommentData where
  author : String
  body : String
  score : Int
  createdUtc : String
deriving DecidableEq

/-- Build the comment dictionary of lines 93-98 from an API comment. -/
def commentEntry (c : CommentIn) : CommentData :=
  { author := strAuthor c.author
    body := c.body
    score := c.score
    createdUtc := formatTimestamp c.createdUtc }

/-- The post dictionary built at enhanced_scraper.py lines 104-118.
`matchingComments = none` models the absence of the 'matching_comments'
key. -/
structure PostData where
  title : String
  text : String
  url : String
  score : Int
  id : String
  author : String
  createdUtc : String
  upvoteRatio : Int
  numComments : Int
  permalink : String
  matchingComments : Option (List CommentData)
deriving DecidableEq

/-- The body of the submission loop of `scrape_subreddit`
(enhanced_scraper.py lines 72-120): `none` when the `continue` paths skip
the submission, `some` of the built post dictionary when it is appended.
The slice `[:20]` at line 90 limits the comment search to the first 20
comments of the flattened list. -/
def processSubmission (keywords : List String) (includeComments : Bool)
    (minScore : Int) (includeSelftext : Bool) (s : Submission) :
    Option PostData :=
  if s.score < minScore then none
  else
    let titleMatch := anyKeywordIn keywords s.title
    let selftextMatch := includeSelftext && anyKeywordIn keywords s.selftext
    let commentsData :=
      if includeComments then
        ((s.comments.take 20).filter
          (fun c => anyKeywordIn keywords c.body)).map commentEntry
      else []
    let commentMatch := !commentsData.isEmpty
    if titleMatch || selftextMatch || commentMatch then
      some
        { title := s.title
          text := s.selftext
          url := s.url
          score := s.score
          id := s.id
          author := strAuthor s.author
          createdUtc := formatTimestamp s.createdUtc
          upvoteRatio := s.upvoteRatio
          numComments := s.numComments
          permalink := "https://www.reddit.com" ++ s.permalink
          matchingComments :=
            if includeComments && !commentsData.isEmpty then some commentsData
            else none }
    else none

/-- `scrape_subreddit` over the already-fetched submission sequence: collect
the post dictionaries of the matching submissions, in order (lines
72-120). -/
def scrapeSubreddit (submissions : List Submission) (keywords : List String)
    (includeComments : Bool) (minScore : Int) (includeSelftext : Bool) :
    List PostData :=
  submissions.filterMap
    (processSubmission keywords includeComments minScore includeSelftext)

/-- The scraper object state: the `last_search_results` attribute set at
enhanced_scraper.py line 123. -/
structure ScraperState where
  lastSearchResults : List PostData
deriving DecidableEq

/-- `scrape_subreddit` as a state transformer on the scraper object:
returns the result list and the post-call state, which stores the result
list in `last_search_results` (lines 122-124). -/
def scrapeSubredditRun (_st : ScraperState) (submissions : List Submission)
    (keywords : List String) (includeComments : Bool) (minScore : Int)
    (includeSelftext : Bool) : List PostData × ScraperState :=
  let results :=
    scrapeSubreddit submissions keywords includeComments minScore
      includeSelftext
  (results, { lastSearchResults := results })

/-- Python dict insertion `d[k] = v` on an association list: an existing key
is updated in place (keeping its position), a new key is appended. -/
def dictInsert (k : String) (v : α) :
    List (String × α) → List (String × α)
  | [] => [(k, v)]
  | (k', v') :: rest =>
      if k = k' then (k, v) :: rest else (k', v') :: dictInsert k v rest

/-- Python dict lookup on an association list. -/
def lookupKey (k : String) : List (String × α) → Option α
  | [] => none
  | (k', v) :: rest => if k = k' then some v else lookupKey k rest

/-- `search_multiple_subreddits` (enhanced_scraper.py lines 126-144): fan the
single-group scrape out over the listed groups, building a dict from group
name to its result list.  `world` is the API client, giving each subreddit
name its fetched submission sequence under the shared limit and sort. -/
def searchMultipleSubreddits (world : String → List Submission)
    (subreddits : List String) (keywords : List String)
    (includeComments : Bool) (minScore : Int) (includeSelftext : Bool) :
    List (String × List PostData) :=
  subreddits.foldl
    (fun acc name =>
      dictInsert name
        (scrapeSubreddit (world name) keywords includeComments minScore
          includeSelftext) acc)
    []

/-- A calendar date-time value, the result of parsing a
'%Y-%m-%d %H:%M:%S' string. -/
structure DateTime where
  year : Nat
  month : Nat
  day : Nat
  hour : Nat
  minute : Nat
  second : Nat
deriving DecidableEq

/-- Encode a date-time whose fields are in calendar range as a single
number; chronological order on valid values is numeric order on the
encoding, matching Python datetime comparison. -/
def dtKey (d : DateTime) : Nat :=
  ((((d.year * 100 + d.month) * 100 + d.day) * 100 + d.hour) * 100 +
      d.minute) * 100 + d.second

/-- Python `a < b` on datetimes (chronological order). -/
def dtLt (a b : DateTime) : Bool :=
  dtKey a < dtKey b

/-- Leap-year test of the Gregorian calendar. -/
def isLeapYear (y : Nat) : Bool :=
  (y % 4 == 0 && y % 100 != 0) || y % 400 == 0

/-- Days in a month, as the datetime constructor validates them. -/
def daysInMonth (y m : Nat) : Nat :=
  if m == 2 then (if isLeapYear y then 29 else 28)
  else if m == 4 || m == 6 || m == 9 || m == 11 then 30
  else 31

/-- Numeric value of a digit character list (most significant first). -/
def digitsVal (l : List Char) : Nat :=
  l.foldl (fun acc c => acc * 10 + (c.toNat - 48)) 0

/-- Model of `datetime.strptime(s, '%Y-%m-%d %H:%M:%S')`: `none` models the
ValueError raised on a malformed string, `some` the parsed datetime.  The
model accepts exactly the zero-padded form the scraper itself writes with
the matching strftime call, and validates field ranges as the datetime
constructor does. -/
def parseDateTime (s : String) : Option DateTime :=
  match s.data with
  | [y1, y2, y3, y4, '-', m1, m2, '-', d1, d2, ' ',
     h1, h2, ':', n1, n2, ':', s1, s2] =>
    if ([y1, y2, y3, y4, m1, m2, d1, d2, h1, h2, n1, n2, s1, s2].all
          Char.isDigit) then
      let y := digitsVal [y1, y2, y3, y4]
      let mo := digitsVal [m1, m2]
      let d := digitsVal [d1, d2]
      let h := digitsVal [h1, h2]
      let mi := digitsVal [n1, n2]
      let se := digitsVal [s1, s2]
      if 1 ≤ mo && mo ≤ 12 && 1 ≤ d && d ≤ daysInMonth y mo &&
          h ≤ 23 && mi ≤ 59 && se ≤ 59 then
        some { year := y, month := mo, day := d,
               hour := h, minute := mi, second := se }
      else none
    else none
  | _ => none

/-- The filter criteria dictionary of advanced_scraper_ui.py (the
`filters` session value): minimum score, the optional date bounds and the
"show only posts with matching comments" flag. -/
structure Filters where
  minScore : Int
  dateFrom : Option DateTime
  dateTo : Option DateTime
  showOnlyWithComments : Bool
deriving DecidableEq

/-- Python `'matching_comments' not in post or not post['matching_comments']`
(advanced_scraper_ui.py line 107): the key is absent or the list is
empty. -/
def noMatchingComments (p : PostData) : Bool :=
  match p.matchingComments with
  | none => true
  | some l => l.isEmpty

/-- The per-post body of `filter_results` (advanced_scraper_ui.py lines
91-110): `some true` when the post is appended, `some false` when a
`continue` skips it, `none` when the strptime call at line 98 raises on an
unparseable date while a date bound is set. -/
def keepPost (f : Filters) (p : PostData) : Option Bool :=
  if p.score < f.minScore then some false
  else
    let dateStep : Option Bool :=
      if f.dateFrom.isSome || f.dateTo.isSome then
        match parseDateTime p.createdUtc with
        | none => none
        | some d =>
          if (match f.dateFrom with
              | some lo => dtLt d lo
              | none => false) then some false
          else if (match f.dateTo with
              | some hi => dtLt hi d
              | none => false) then some false
          else some true
      else some true
    dateStep.bind (fun dateOk =>
      if !dateOk then some false
      else if f.showOnlyWithComments && noMatchingComments p then some false
      else some true)

/-- The inner post loop of `filter_results` for one group: the appended
posts in order, or `none` when some post's date raises.  A raise aborts the
whole pass, as the uncaught Python exception does. -/
def filterPosts (f : Filters) : List PostData → Option (List PostData)
  | [] => some []
  | p :: ps =>
    (keepPost f p).bind (fun k =>
      (filterPosts f ps).map (fun rest => if k then p :: rest else rest))

/-- `filter_results` (advanced_scraper_ui.py lines 84-114): rebuild the
group dict with each group's filtered post list; `none` models the
uncaught strptime ValueError aborting the pass. -/
def filterResults (f : Filters) :
    List (String × List PostData) → Option (List (String × List PostData))
  | [] => some []
  | (g, ps) :: rest =>
    (filterPosts f ps).bind (fun fp =>
      (filterResults f rest).map (fun r => (g, fp) :: r))

/-- The keep-condition exactly as the specification words it (spec section
4.2): score at least the minimum, AND no date bound set or the parsed
creation time inside the inclusive range with an unset bound unconstrained,
AND the require-comments flag off or a non-empty matching-comments list
(absent field counting as empty).  Stated from the spec for comparison with
`keepPost`, which is stated from the code. -/
def specKeepsPost (f : Filters) (p : PostData) : Bool :=
  decide (f.minScore ≤ p.score) &&
  (match f.dateFrom, f.dateTo with
   | none, none => true
   | _, _ =>
     match parseDateTime p.createdUtc with
     | none => false
     | some d =>
       (match f.dateFrom with
        | none => true
        | some lo => !(dtLt d lo)) &&
       (match f.dateTo with
        | none => true
        | some hi => !(dtLt hi d))) &&
  (!f.showOnlyWithComments || !(noMatchingComments p))

/-- Helper: the comment-match flag of `processSubmission` holds iff comment
search is on and some of the first 20 comments matches a keyword. -/
theorem commentMatch_eq (kws : List String) (ic : Bool) (s : Submission) :
    (!(if ic then
        ((s.comments.take 20).filter
          (fun c => anyKeywordIn kws c.body)).map commentEntry
      else []).isEmpty) =
      (ic && (s.comments.take 20).any (fun c => anyKeywordIn kws c.body)) := by
  cases ic
  · simp
  · rw [Bool.eq_iff_iff]
    simp [List.isEmpty_iff, List.filter_eq_nil_iff]

/-- Helper: a submission yields a post record iff the score passes and one
of the three match flags holds, in the boolean combination the loop body
computes. -/
theorem processSubmission_isSome (kws : List String) (ic : Bool)
    (mins : Int) (includeSelf : Bool) (s : Submission) :
    (processSubmission kws ic mins includeSelf s).isSome =
      (decide (mins ≤ s.score) &&
        (anyKeywordIn kws s.title ||
          includeSelf && anyKeywordIn kws s.selftext ||
          ic && (s.comments.take 20).any (fun c => anyKeywordIn kws c.body)))
    := by
  unfold processSubmission
  by_cases hs : s.score < mins
  · simp [hs, not_le.mpr hs]
  · have h1 : mins ≤ s.score := not_lt.mp hs
    simp only [if_neg hs, decide_eq_true h1, Bool.true_and]
    rw [commentMatch_eq kws ic s]
    split
    next h => simp [h]
    next h => simp [h]

/-- Helper: Prop-level reading of `processSubmission_isSome`. -/
theorem processSubmission_isSome_iff (kws : List String) (ic : Bool)
    (mins : Int) (includeSelf : Bool) (s : Submission) :
    (processSubmission kws ic mins includeSelf s).isSome = true ↔
      (mins ≤ s.score ∧
        (anyKeywordIn kws s.title = true ∨
          (includeSelf = true ∧ anyKeywordIn kws s.selftext = true) ∨
          (ic = true ∧ ∃ c ∈ s.comments.take 20,
            anyKeywordIn kws c.body = true))) := by
  rw [processSubmission_isSome]
  simp only [Bool.and_eq_true, Bool.or_eq_true, decide_eq_true_eq,
    List.any_eq_true]
  tauto

/-- A comment that does not contain the keyword "help". -/
def fillerComment : CommentIn :=
  { author := some "u1", body := "nothing to see", score := 1,
    createdUtc := 0 }

/-- A comment that does contain the keyword "help". -/
def lateComment : CommentIn :=
  { author := some "u2", body := "I can help you", score := 2,
    createdUtc := 0 }

/-- A submission whose only keyword occurrence sits in comment number 21:
twenty filler comments, then `lateComment`.  Title and body do not
match. -/
def lateMatchSub : Submission :=
  { title := "random post", selftext := "", url := "https://example.org",
    score := 5, id := "p1", author := some "op", createdUtc := 0,
    upvoteRatio := 0, numComments := 21, permalink := "/r/x/p1",
    comments := List.replicate 20 fillerComment ++ [lateComment] }

/-- C1 counterexample: with comment search on, minimum score 0 and keyword
"help", `lateMatchSub` satisfies the claim's inclusion condition — its
score passes and one of its comment bodies contains the keyword — yet the
matcher returns no post for it, because only the first 20 comments are
examined.  The claimed if-and-only-if is therefore false as stated. -/
theorem c1_counterexample :
    lateComment ∈ lateMatchSub.comments ∧
    anyKeywordIn ["help"] lateComment.body = true ∧
    (0 : Int) ≤ lateMatchSub.score ∧
    scrapeSubreddit [lateMatchSub] ["help"] true 0 true = [] := by
  decide

/-- C1 (amended): the matcher includes a post iff its score is at least the
minimum score and some keyword is a case-insensitive substring of the
title, or (when body search is set) of the body text, or (when comment
search is set) of the body of one of the first 20 comments. -/
theorem c1_match_iff (s : Submission) (kws : List String) (ic : Bool)
    (mins : Int) (includeSelf : Bool) :
    scrapeSubreddit [s] kws ic mins includeSelf ≠ [] ↔
      (mins ≤ s.score ∧
        (anyKeywordIn kws s.title = true ∨
          (includeSelf = true ∧ anyKeywordIn kws s.selftext = true) ∨
          (ic = true ∧ ∃ c ∈ s.comments.take 20,
            anyKeywordIn kws c.body = true))) := by
  rw [← processSubmission_isSome_iff]
  cases hp : processSubmission kws ic mins includeSelf s
  · simp [scrapeSubreddit, List.filterMap_cons, hp]
  · simp [scrapeSubreddit, List.filterMap_cons, hp]

/-- A submission whose title contains the keyword "help". -/
def titleMatchSub : Submission :=
  { title := "need help", selftext := "", url := "https://example.org",
    score := 5, id := "p2", author := some "op", createdUtc := 0,
    upvoteRatio := 0, numComments := 0, permalink := "/r/x/p2",
    comments := [] }

/-- C1 witness: the amended characterization evaluated on the spec's own
scenario post ("need help", score 5, minimum score 0). -/
theorem c1_witness :
    scrapeSubreddit [titleMatchSub] ["help"] false 0 true ≠ [] :=
  (c1_match_iff titleMatchSub ["help"] false 0 true).mpr (by decide)

/-- Helper: the substring scan over an empty haystack succeeds only for the
empty needle. -/
theorem isSubChars_nil (n : List Char) : isSubChars n [] = n.isEmpty := by
  cases n <;> rfl

/-- A submission with an empty body whose title does not contain the empty
keyword set's only keyword in a non-trivial way; used for the C8
counterexample. -/
def emptyBodySub : Submission :=
  { title := "random post", selftext := "", url := "https://example.org",
    score := 5, id := "p3", author := some "op", createdUtc := 0,
    upvoteRatio := 0, numComments := 0, permalink := "/r/x/p3",
    comments := [] }

/-- C8 counterexample: with the empty string as a keyword, the body
predicate evaluates to true on an empty body — the Python substring test
holds the empty string to occur in every string, the empty one included.
The claim that an empty body never matches regardless of the keywords
(the empty-string keyword included) is therefore false. -/
theorem c8_counterexample :
    emptyBodySub.selftext = "" ∧
    anyKeywordIn [""] emptyBodySub.selftext = true := by
  decide

/-- C8 (amended): when every keyword is non-empty, the body predicate of
the keyword matcher is false on an empty body text. -/
theorem c8_empty_body_no_match (kws : List String) (s : Submission)
    (hbody : s.selftext = "") (hk : ∀ k ∈ kws, k ≠ "") :
    anyKeywordIn kws s.selftext = false := by
  rw [hbody]
  unfold anyKeywordIn
  rw [List.any_eq_false]
  intro k hkmem
  show ¬ (pyIn (pyLower k) (pyLower "") = true)
  intro hcon
  unfold pyIn at hcon
  have h2 : (pyLower "").data = [] := by decide
  rw [h2, isSubChars_nil] at hcon
  have h3 : (pyLower k).data = k.data.map Char.toLower := rfl
  rw [h3, List.isEmpty_iff, List.map_eq_nil_iff] at hcon
  exact hk k hkmem (String.ext (by rw [hcon]))

/-- C8 witness: the amended statement evaluated on the empty-body
submission and the non-empty keyword "help". -/
theorem c8_witness :
    emptyBodySub.selftext = "" ∧
    anyKeywordIn ["help"] emptyBodySub.selftext = false :=
  ⟨by decide,
    c8_empty_body_no_match ["help"] emptyBodySub (by decide)
      (by decide)⟩

/-- The comment entries retained for a submission: the entries built from
those of the first 20 comments whose body matches a keyword (enhanced
scraper lines 90-98). -/
def matchedCommentEntries (kws : List String) (s : Submission) :
    List CommentData :=
  ((s.comments.take 20).filter (fun c => anyKeywordIn kws c.body)).map
    commentEntry

/-- Helper: the matching-comments field of a produced post record is
exactly the matched entries of the first 20 comments when comment search is
on and some comment matched, and absent otherwise. -/
theorem processSubmission_matchingComments (kws : List String) (ic : Bool)
    (mins : Int) (includeSelf : Bool) (s : Submission) (pd : PostData)
    (h : processSubmission kws ic mins includeSelf s = some pd) :
    pd.matchingComments =
      (if ic && !(matchedCommentEntries kws s).isEmpty then
        some (matchedCommentEntries kws s)
      else none) := by
  by_cases hs : s.score < mins
  · rw [processSubmission, if_pos hs] at h
    exact absurd h (by simp)
  · rw [processSubmission, if_neg hs] at h
    simp only [] at h
    split at h
    · split at h
      · have hpd := Option.some.inj h
        subst hpd
        simp_all [matchedCommentEntries]
      · exact absurd h (by simp)
    · split at h
      · have hpd := Option.some.inj h
        subst hpd
        simp_all
      · exact absurd h (by simp)

/-- A comment that contains the keyword "help" and sits first. -/
def earlyComment : CommentIn :=
  { author := some "u3", body := "help me", score := 3, createdUtc := 0 }

/-- A submission whose comments number 1 and 21 both contain the keyword:
the matcher's comment scan sees only the first. -/
def spreadMatchSub : Submission :=
  { title := "random post", selftext := "", url := "https://example.org",
    score := 5, id := "p9", author := some "op", createdUtc := 0,
    upvoteRatio := 0, numComments := 21, permalink := "/r/x/p9",
    comments := earlyComment ::
      (List.replicate 19 fillerComment ++ [lateComment]) }

/-- C9 counterexample: comment number 21 of `spreadMatchSub` individually
matches the keyword, yet the produced matching-comments list holds only the
entry of comment number 1 — the field does not contain every comment that
individually matched, only those among the first 20 examined. -/
theorem c9_counterexample :
    lateComment ∈ spreadMatchSub.comments ∧
    anyKeywordIn ["help"] lateComment.body = true ∧
    (processSubmission ["help"] true 0 true spreadMatchSub).bind
        PostData.matchingComments = some [commentEntry earlyComment] ∧
    commentEntry lateComment ∉ [commentEntry earlyComment] := by
  decide

/-- C9 (amended): a produced post record's matching-comments field is
present iff comment search was enabled and at least one of the first 20
comments individually matched; when present it holds exactly the entries of
the matching comments among the first 20, and it is absent exactly when
that list of matches is empty (or comment search was off). -/
theorem c9_matching_comments (kws : List String) (ic : Bool) (mins : Int)
    (includeSelf : Bool) (s : Submission) (pd : PostData)
    (h : processSubmission kws ic mins includeSelf s = some pd) :
    pd.matchingComments =
      (if ic && !(matchedCommentEntries kws s).isEmpty then
        some (matchedCommentEntries kws s)
      else none) :=
  processSubmission_matchingComments kws ic mins includeSelf s pd h

/-- The post record the matcher produces for `spreadMatchSub`. -/
def spreadMatchPost : PostData :=
  { title := "random post", text := "", url := "https://example.org",
    score := 5, id := "p9", author := "op",
    createdUtc := formatTimestamp 0, upvoteRatio := 0, numComments := 21,
    permalink := "https://www.reddit.com/r/x/p9",
    matchingComments := some [commentEntry earlyComment] }

/-- C9 witness: the amended statement evaluated on `spreadMatchSub`. -/
theorem c9_witness :
    processSubmission ["help"] true 0 true spreadMatchSub =
      some spreadMatchPost ∧
    spreadMatchPost.matchingComments =
      (if true && !(matchedCommentEntries ["help"] spreadMatchSub).isEmpty
        then some (matchedCommentEntries ["help"] spreadMatchSub)
      else none) :=
  ⟨by decide,
    c9_matching_comments ["help"] true 0 true spreadMatchSub
      spreadMatchPost (by decide)⟩

/-- C10: the comment scan is limited to the first 20 comments.  Three
faces of the limit: a produced matching-comments list never exceeds 20
entries; the matcher's verdict on a submission is unchanged when its
comment list is truncated to 20; and a submission whose first 20 comments
(and title and searched body) carry no keyword yields no post, whatever its
later comments contain. -/
theorem c10_comment_limit :
    (∀ (subs : List Submission) (kws : List String) (ic : Bool)
        (mins : Int) (includeSelf : Bool) (pd : PostData)
        (mc : List CommentData),
      pd ∈ scrapeSubreddit subs kws ic mins includeSelf →
      pd.matchingComments = some mc → mc.length ≤ 20) ∧
    (∀ (kws : List String) (ic : Bool) (mins : Int) (includeSelf : Bool)
        (s : Submission),
      processSubmission kws ic mins includeSelf
          { s with comments := s.comments.take 20 } =
        processSubmission kws ic mins includeSelf s) ∧
    (∀ (s : Submission) (kws : List String) (mins : Int)
        (includeSelf : Bool),
      anyKeywordIn kws s.title = false →
      (includeSelf = true → anyKeywordIn kws s.selftext = false) →
      (∀ c ∈ s.comments.take 20, anyKeywordIn kws c.body = false) →
      scrapeSubreddit [s] kws true mins includeSelf = []) := by
  refine ⟨?_, ?_, ?_⟩
  · intro subs kws ic mins includeSelf pd mc hmem hmc
    rw [scrapeSubreddit, List.mem_filterMap] at hmem
    obtain ⟨s, hsmem, hps⟩ := hmem
    have h := processSubmission_matchingComments kws ic mins includeSelf s
      pd hps
    rw [hmc] at h
    split at h
    · have hmceq := Option.some.inj h
      subst hmceq
      rw [matchedCommentEntries, List.length_map]
      exact le_trans (List.length_filter_le _ _) (List.length_take_le _ _)
    · exact absurd h (by simp)
  · intro kws ic mins includeSelf s
    simp [processSubmission, List.take_take]
  · intro s kws mins includeSelf h1 h2 h3
    have hfalse : (s.comments.take 20).any
        (fun c => anyKeywordIn kws c.body) = false :=
      List.any_eq_false.mpr (by intro c hc; simp [h3 c hc])
    have hb : (processSubmission kws true mins includeSelf s).isSome
        = false := by
      rw [processSubmission_isSome, h1, hfalse]
      cases includeSelf
      · simp
      · rw [h2 rfl]; simp
    rw [scrapeSubreddit]
    cases hps : processSubmission kws true mins includeSelf s
    · simp [List.filterMap_cons, hps]
    · rw [hps] at hb
      simp at hb

/-- C10 witness: the limit evaluated on the submission whose only keyword
occurrence is comment number 21: the matcher returns nothing for it. -/
theorem c10_witness :
    anyKeywordIn ["help"] lateMatchSub.title = false ∧
    (∀ c ∈ lateMatchSub.comments.take 20,
      anyKeywordIn ["help"] c.body = false) ∧
    scrapeSubreddit [lateMatchSub] ["help"] true 0 true = [] :=
  ⟨by decide, by decide,
    c10_comment_limit.2.2 lateMatchSub ["help"] 0 true (by decide)
      (fun _ => by decide) (by decide)⟩

/-- A stored post record for exercising the scraper state. -/
def storedPost : PostData :=
  { title := "old result", text := "", url := "https://example.org",
    score := 1, id := "old", author := "op", createdUtc := "0",
    upvoteRatio := 0, numComments := 0, permalink := "q",
    matchingComments := none }

/-- C4 counterexample: a scrape call on an empty submission sequence,
starting from a scraper whose stored last-results field is non-empty,
leaves the scraper in a different state — the stored field is overwritten
with the new (empty) result list, so scraper-visible state is not
preserved by the call. -/
theorem c4_counterexample :
    (scrapeSubredditRun { lastSearchResults := [storedPost] } []
        ["help"] false 0 true).2 ≠
      { lastSearchResults := [storedPost] } := by
  decide

/-- C4 (amended): the call's only scraper-visible state change is that the
stored last-results field is overwritten with the returned result list;
the post-call state is exactly that field set to the returned results. -/
theorem c4_state_is_results (st : ScraperState)
    (submissions : List Submission) (kws : List String) (ic : Bool)
    (mins : Int) (includeSelf : Bool) :
    (scrapeSubredditRun st submissions kws ic mins includeSelf).2 =
      { lastSearchResults :=
          (scrapeSubredditRun st submissions kws ic mins includeSelf).1 } :=
  rfl

/-- Helper: looking a name up after a dict insertion. -/
theorem lookupKey_dictInsert (k name : String) (v : α)
    (l : List (String × α)) :
    lookupKey name (dictInsert k v l) =
      if name = k then some v else lookupKey name l := by
  induction l with
  | nil => simp [dictInsert, lookupKey]
  | cons hd tl ih =>
    obtain ⟨k', v'⟩ := hd
    by_cases hk : k = k'
    · subst hk
      by_cases hn : name = k <;> simp [dictInsert, lookupKey, hn]
    · by_cases hn : name = k'
      · subst hn
        have hk2 : ¬ name = k := fun h => hk h.symm
        simp [dictInsert, lookupKey, hk, hk2]
      · simp [dictInsert, lookupKey, hk, hn, ih]

/-- Helper: looking a name up after folding dict insertions of `f n` over a
name list: the name's value if it was inserted, else the accumulator's
entry.  Later insertions of the same name overwrite with the same value,
so membership is all that matters. -/
theorem lookupKey_foldl_dictInsert (f : String → α) (subs : List String) :
    ∀ (acc : List (String × α)) (name : String),
      lookupKey name
          (subs.foldl (fun a n => dictInsert n (f n) a) acc) =
        if name ∈ subs then some (f name) else lookupKey name acc := by
  induction subs with
  | nil => intro acc name; simp
  | cons s rest ih =>
    intro acc name
    rw [List.foldl_cons, ih, lookupKey_dictInsert]
    by_cases h1 : name ∈ rest
    · simp [h1, List.mem_cons]
    · by_cases h2 : name = s
      · simp [h1, h2]
      · simp [h1, h2, List.mem_cons]

/-- Helper: keys present after a dict insertion. -/
theorem mem_keys_dictInsert (a k : String) (v : α)
    (l : List (String × α)) :
    a ∈ (dictInsert k v l).map Prod.fst ↔
      a = k ∨ a ∈ l.map Prod.fst := by
  induction l with
  | nil => simp [dictInsert]
  | cons hd tl ih =>
    obtain ⟨k', v'⟩ := hd
    by_cases hk : k = k'
    · subst hk
      simp [dictInsert]
    · simp [dictInsert, hk, ih]
      tauto

/-- Helper: dict insertion preserves distinctness of keys. -/
theorem nodup_keys_dictInsert (k : String) (v : α)
    (l : List (String × α)) (h : (l.map Prod.fst).Nodup) :
    ((dictInsert k v l).map Prod.fst).Nodup := by
  induction l with
  | nil => simp [dictInsert]
  | cons hd tl ih =>
    obtain ⟨k', v'⟩ := hd
    simp only [List.map_cons, List.nodup_cons] at h
    by_cases hk : k = k'
    · subst hk
      simpa [dictInsert] using h
    · simp only [dictInsert, if_neg hk, List.map_cons, List.nodup_cons]
      refine ⟨?_, ih h.2⟩
      rw [mem_keys_dictInsert]
      rintro (rfl | hmem)
      · exact hk rfl
      · exact h.1 hmem

/-- Helper: folding dict insertions preserves distinctness of keys. -/
theorem nodup_keys_foldl_dictInsert (f : String → α)
    (subs : List String) :
    ∀ (acc : List (String × α)), (acc.map Prod.fst).Nodup →
      (((subs.foldl (fun a n => dictInsert n (f n) a) acc).map
        Prod.fst).Nodup) := by
  induction subs with
  | nil => intro acc h; exact h
  | cons s rest ih =>
    intro acc h
    rw [List.foldl_cons]
    exact ih _ (nodup_keys_dictInsert s (f s) acc h)

/-- C7: the multi-group search returns a mapping whose keys are exactly
the listed groups, each appearing once, and each group's value is the
single-group matcher's result for that group under the identical criteria;
a group absent from the list is absent from the mapping. -/
theorem c7_multi_group (world : String → List Submission)
    (subreddits kws : List String) (ic : Bool) (mins : Int)
    (includeSelf : Bool) :
    (((searchMultipleSubreddits world subreddits kws ic mins
        includeSelf).map Prod.fst).Nodup) ∧
    (∀ name,
      lookupKey name
          (searchMultipleSubreddits world subreddits kws ic mins
            includeSelf) =
        if name ∈ subreddits then
          some (scrapeSubreddit (world name) kws ic mins includeSelf)
        else none) := by
  rw [searchMultipleSubreddits]
  constructor
  · exact nodup_keys_foldl_dictInsert
      (fun n => scrapeSubreddit (world n) kws ic mins includeSelf)
      subreddits [] (by simp)
  · intro name
    rw [lookupKey_foldl_dictInsert
      (fun n => scrapeSubreddit (world n) kws ic mins includeSelf)
      subreddits [] name]
    rfl

/-- A two-group API world: group "alpha" holds the matching submission,
group "beta" holds nothing. -/
def exWorld : String → List Submission :=
  fun name => if name = "alpha" then [titleMatchSub] else []

/-- C7 witness: the fan-out evaluated on the two-group world; the empty
group is present and maps to the single-group result for it. -/
theorem c7_witness :
    lookupKey "beta"
        (searchMultipleSubreddits exWorld ["alpha", "beta"] ["help"]
          false 0 true) =
      (if "beta" ∈ ["alpha", "beta"] then
        some (scrapeSubreddit (exWorld "beta") ["help"] false 0 true)
      else none) :=
  (c7_multi_group exWorld ["alpha", "beta"] ["help"] false 0 true).2 "beta"

/-- Helper: the date-then-comments step of the per-post filter body, as a
boolean identity. -/
theorem keepStep_eq (A B s n : Bool) :
    ((if A = true then some false
      else if B = true then some false else some true).bind
      (fun a => if (!a) = true then some false
        else if (s && n) = true then some false else some true)) =
      some (!A && !B && (!s || !n)) := by
  cases A <;> cases B <;> cases s <;> cases n <;> rfl

/-- Helper: when the creation time parses whenever a date bound is set, the
per-post body of the filter neither raises nor disagrees with the
specification's keep-condition. -/
theorem keepPost_eq_spec (f : Filters) (p : PostData)
    (h : (f.dateFrom.isSome || f.dateTo.isSome) = true →
      (parseDateTime p.createdUtc).isSome = true) :
    keepPost f p = some (specKeepsPost f p) := by
  unfold keepPost specKeepsPost
  by_cases hs : p.score < f.minScore
  · simp [hs, not_le.mpr hs]
  · have hle : f.minScore ≤ p.score := not_lt.mp hs
    simp only [if_neg hs, decide_eq_true hle, Bool.true_and]
    rcases hdf : f.dateFrom with _ | lo <;>
      rcases hdt : f.dateTo with _ | hi
    · simp only [hdf, hdt, Option.isSome_none, Bool.or_self,
        Bool.false_eq_true, if_false]
      cases hw : f.showOnlyWithComments <;>
        cases hnm : noMatchingComments p <;> simp [hw, hnm]
    · have hp := h (by rw [hdt]; simp)
      obtain ⟨d, hd⟩ := Option.isSome_iff_exists.mp hp
      simp only [hdf, hdt, Option.isSome_none, Option.isSome_some,
        Bool.false_or, if_true, hd]
      exact keepStep_eq false (dtLt hi d) f.showOnlyWithComments
        (noMatchingComments p)
    · have hp := h (by rw [hdf]; simp)
      obtain ⟨d, hd⟩ := Option.isSome_iff_exists.mp hp
      simp only [hdf, hdt, Option.isSome_none, Option.isSome_some,
        Bool.or_false, if_true, hd]
      exact keepStep_eq (dtLt d lo) false f.showOnlyWithComments
        (noMatchingComments p)
    · have hp := h (by rw [hdf]; simp)
      obtain ⟨d, hd⟩ := Option.isSome_iff_exists.mp hp
      simp only [hdf, hdt, Option.isSome_some, Bool.or_self, if_true, hd]
      exact keepStep_eq (dtLt d lo) (dtLt hi d) f.showOnlyWithComments
        (noMatchingComments p)

/-- Helper: the per-group post loop agrees with a stable filter by the
specification's keep-condition when every creation time parses as
needed. -/
theorem filterPosts_eq_spec (f : Filters) (ps : List PostData)
    (h : ∀ p ∈ ps, (f.dateFrom.isSome || f.dateTo.isSome) = true →
      (parseDateTime p.createdUtc).isSome = true) :
    filterPosts f ps = some (ps.filter (specKeepsPost f)) := by
  induction ps with
  | nil => rfl
  | cons p ps ih =>
    rw [filterPosts, keepPost_eq_spec f p (h p (by simp)),
      ih (fun q hq => h q (by simp [hq]))]
    rw [List.filter_cons]
    cases hsp : specKeepsPost f p <;> simp [hsp]

/-- C2: assuming every post's creation time parses whenever a date bound is
set, the post-hoc filter succeeds and keeps a post exactly when its score
is at least the minimum, its creation time lies in the inclusive date range
(an unset bound unconstrained, no parsing at all when no bound is set), and
the require-comments flag is off or the post has a non-empty
matching-comments list (an absent field counting as empty) — the
`specKeepsPost` predicate, applied groupwise as a stable filter. -/
theorem c2_filter_keeps_iff (f : Filters)
    (results : List (String × List PostData))
    (h : ∀ gp ∈ results, ∀ p ∈ gp.2,
      (f.dateFrom.isSome || f.dateTo.isSome) = true →
      (parseDateTime p.createdUtc).isSome = true) :
    filterResults f results =
      some (results.map
        (fun gp => (gp.1, gp.2.filter (specKeepsPost f)))) := by
  induction results with
  | nil => rfl
  | cons gp rest ih =>
    obtain ⟨g, ps⟩ := gp
    rw [filterResults,
      filterPosts_eq_spec f ps (fun p hp => h (g, ps) (by simp) p hp),
      ih (fun gq hgq q hq => h gq (by simp [hgq]) q hq)]
    rfl

/-- A post with a parseable January creation time and one matching
comment entry. -/
def janPost : PostData :=
  { title := "need help", text := "", url := "https://example.org",
    score := 5, id := "j1", author := "op",
    createdUtc := "2024-01-15 10:00:00", upvoteRatio := 0,
    numComments := 1, permalink := "p",
    matchingComments := some [commentEntry earlyComment] }

/-- A post with a parseable February creation time and no matching
comments. -/
def febPost : PostData :=
  { title := "need help", text := "", url := "https://example.org",
    score := 5, id := "f1", author := "op",
    createdUtc := "2024-02-01 00:00:00", upvoteRatio := 0,
    numComments := 0, permalink := "p", matchingComments := none }

/-- Midnight on 2024-01-01. -/
def jan1 : DateTime := ⟨2024, 1, 1, 0, 0, 0⟩

/-- The last second of 2024-01-31. -/
def jan31 : DateTime := ⟨2024, 1, 31, 23, 59, 59⟩

/-- The date range 2024-01-01 to 2024-01-31 of the spec scenario, with
minimum score 0 and no comment requirement. -/
def janFilters : Filters :=
  { minScore := 0, dateFrom := some jan1, dateTo := some jan31,
    showOnlyWithComments := false }

/-- C2 witness: the characterization evaluated on the spec's date-range
scenario — the January post survives, the February post is excluded. -/
theorem c2_witness :
    (∀ gp ∈ [("grp", [janPost, febPost])], ∀ p ∈ gp.2,
      (janFilters.dateFrom.isSome || janFilters.dateTo.isSome) = true →
      (parseDateTime p.createdUtc).isSome = true) ∧
    filterResults janFilters [("grp", [janPost, febPost])] =
      some ([("grp", [janPost, febPost])].map
        (fun gp => (gp.1, gp.2.filter (specKeepsPost janFilters)))) :=
  ⟨by decide, c2_filter_keeps_iff janFilters [("grp", [janPost, febPost])]
    (by decide)⟩

/-- Helper: a post that reaches the date check with an unparseable creation
time makes the per-post body raise. -/
theorem keepPost_none_of_unparseable (f : Filters) (p : PostData)
    (h1 : ¬ p.score < f.minScore)
    (h2 : (f.dateFrom.isSome || f.dateTo.isSome) = true)
    (h3 : parseDateTime p.createdUtc = none) :
    keepPost f p = none := by
  unfold keepPost
  rw [if_neg h1, if_pos h2, h3]
  rfl

/-- Helper: one raising post aborts its whole group. -/
theorem filterPosts_none_of_mem (f : Filters) (ps : List PostData)
    (p : PostData) (hp : p ∈ ps) (h : keepPost f p = none) :
    filterPosts f ps = none := by
  induction ps with
  | nil => cases hp
  | cons q qs ih =>
    rw [filterPosts]
    rcases List.mem_cons.mp hp with rfl | hmem
    · rw [h]
      rfl
    · cases hk : keepPost f q
      · rfl
      · rw [ih hmem]
        rfl

/-- A post whose creation-time field is not a date at all. -/
def badDatePost : PostData :=
  { title := "broken", text := "", url := "https://example.org",
    score := 5, id := "b1", author := "op", createdUtc := "not-a-date",
    upvoteRatio := 0, numComments := 0, permalink := "p",
    matchingComments := none }

/-- C3 counterexample: a result set holding one post with an unparseable
creation time, filtered with a date bound set, yields no filtered result at
all — the uncaught strptime error aborts the whole pass instead of
excluding just that post; the well-formed post in the same group is lost
too. -/
theorem c3_counterexample :
    parseDateTime badDatePost.createdUtc = none ∧
    janFilters.dateFrom.isSome = true ∧
    filterResults janFilters [("grp", [badDatePost, janPost])] = none := by
  decide

/-- C3 (amended): when any post of any group passes the score check, a
date bound is set and that post's creation time does not parse, the filter
pass raises — it returns no filtered mapping at all, for that post's group
or any other. -/
theorem c3_unparseable_aborts (f : Filters)
    (results : List (String × List PostData)) (g : String)
    (ps : List PostData) (p : PostData)
    (hg : (g, ps) ∈ results) (hp : p ∈ ps)
    (h1 : ¬ p.score < f.minScore)
    (h2 : (f.dateFrom.isSome || f.dateTo.isSome) = true)
    (h3 : parseDateTime p.createdUtc = none) :
    filterResults f results = none := by
  have habort : filterPosts f ps = none :=
    filterPosts_none_of_mem f ps p hp
      (keepPost_none_of_unparseable f p h1 h2 h3)
  induction results with
  | nil => cases hg
  | cons gq rest ih =>
    obtain ⟨g', ps'⟩ := gq
    rw [filterResults]
    rcases List.mem_cons.mp hg with heq | hmem
    · obtain ⟨rfl, rfl⟩ := Prod.mk.injEq .. ▸ heq
      rw [habort]
      rfl
    · cases hk : filterPosts f ps'
      · rfl
      · rw [ih hmem]
        rfl

/-- C3 witness: the amended statement evaluated with the bad-date post in
second position of its group — the pass still aborts. -/
theorem c3_witness :
    filterResults janFilters [("grp2", [janPost, badDatePost])] = none :=
  c3_unparseable_aborts janFilters [("grp2", [janPost, badDatePost])]
    "grp2" [janPost, badDatePost] badDatePost (by decide) (by decide)
    (by decide) (by decide) (by decide)

/-- Helper: every post a successful group filter keeps passes the per-post
body with a definite yes. -/
theorem keepPost_of_mem_filterPosts (f : Filters) (ps qs : List PostData)
    (h : filterPosts f ps = some qs) :
    ∀ q ∈ qs, keepPost f q = some true := by
  induction ps generalizing qs with
  | nil =>
    rw [filterPosts] at h
    obtain rfl := Option.some.inj h
    intro q hq
    cases hq
  | cons p ps ih =>
    rw [filterPosts] at h
    cases hk : keepPost f p with
    | none => simp [hk] at h
    | some k =>
      cases hrest : filterPosts f ps with
      | none => simp [hk, hrest] at h
      | some rest =>
        cases k with
        | false =>
          rw [hk, hrest] at h
          simp at h
          subst h
          intro q hq
          exact ih rest hrest q hq
        | true =>
          rw [hk, hrest] at h
          simp at h
          subst h
          intro q hq
          rcases List.mem_cons.mp hq with rfl | hmem
          · exact hk
          · exact ih rest hrest q hmem

/-- Helper: refiltering an already filtered group changes nothing. -/
theorem filterPosts_idem (f : Filters) (ps qs : List PostData)
    (h : filterPosts f ps = some qs) : filterPosts f qs = some qs := by
  have hall := keepPost_of_mem_filterPosts f ps qs h
  clear h
  induction qs with
  | nil => rfl
  | cons q qs ih =>
    rw [filterPosts, hall q (by simp),
      ih (fun r hr => hall r (by simp [hr]))]
    rfl

/-- C5: filtering is idempotent — when the post-hoc filter returns a
result, filtering that result again with the same criteria returns it
unchanged. -/
theorem c5_filter_idempotent (f : Filters)
    (results out : List (String × List PostData))
    (h : filterResults f results = some out) :
    filterResults f out = some out := by
  induction results generalizing out with
  | nil =>
    rw [filterResults] at h
    obtain rfl := Option.some.inj h
    rfl
  | cons gp rest ih =>
    obtain ⟨g, ps⟩ := gp
    rw [filterResults] at h
    cases hfp : filterPosts f ps with
    | none => simp [hfp] at h
    | some fp =>
      cases hfr : filterResults f rest with
      | none => simp [hfp, hfr] at h
      | some fr =>
        rw [hfp, hfr] at h
        simp only [Option.some_bind, Option.map_some] at h
        obtain rfl := Option.some.inj h
        rw [filterResults, filterPosts_idem f ps fp hfp, ih fr hfr]
        rfl

/-- A post below the witness threshold. -/
def lowScorePost : PostData :=
  { title := "low", text := "", url := "https://example.org", score := 5,
    id := "l1", author := "op", createdUtc := "2024-01-15 10:00:00",
    upvoteRatio := 0, numComments := 0, permalink := "p",
    matchingComments := none }

/-- A post above the witness threshold. -/
def highScorePost : PostData :=
  { title := "high", text := "", url := "https://example.org",
    score := 15, id := "h1", author := "op",
    createdUtc := "2024-01-15 10:00:00", upvoteRatio := 0,
    numComments := 0, permalink := "p", matchingComments := none }

/-- Score-only criteria with threshold 10, the spec's score scenario. -/
def scoreFilters : Filters :=
  { minScore := 10, dateFrom := none, dateTo := none,
    showOnlyWithComments := false }

/-- C5 witness: idempotence evaluated on the score scenario (scores 5 and
15, threshold 10). -/
theorem c5_witness :
    filterResults scoreFilters [("grp", [lowScorePost, highScorePost])] =
      some [("grp", [highScorePost])] ∧
    filterResults scoreFilters [("grp", [highScorePost])] =
      some [("grp", [highScorePost])] :=
  ⟨by decide,
    c5_filter_idempotent scoreFilters
      [("grp", [lowScorePost, highScorePost])] [("grp", [highScorePost])]
      (by decide)⟩

/-- Helper: a successful group filter yields a sublist (order-preserving
subselection) of the group's posts. -/
theorem filterPosts_sublist (f : Filters) (ps qs : List PostData)
    (h : filterPosts f ps = some qs) : qs.Sublist ps := by
  induction ps generalizing qs with
  | nil =>
    rw [filterPosts] at h
    obtain rfl := Option.some.inj h
    exact List.Sublist.refl []
  | cons p ps ih =>
    rw [filterPosts] at h
    cases hk : keepPost f p with
    | none => simp [hk] at h
    | some k =>
      cases hrest : filterPosts f ps with
      | none => simp [hk, hrest] at h
      | some rest =>
        cases k with
        | false =>
          rw [hk, hrest] at h
          simp at h
          subst h
          exact (ih rest hrest).cons p
        | true =>
          rw [hk, hrest] at h
          simp at h
          subst h
          exact (ih rest hrest).cons₂ p

/-- C6: a successful filter pass returns a mapping with exactly the input's
group keys in order (a fully emptied group is kept as an empty sequence),
and each group's surviving posts form an order-preserving subselection of
that group's input posts. -/
theorem c6_filter_shape (f : Filters)
    (results out : List (String × List PostData))
    (h : filterResults f results = some out) :
    out.map Prod.fst = results.map Prod.fst ∧
    List.Forall₂ (fun gin gout => gin.1 = gout.1 ∧ gout.2.Sublist gin.2)
      results out := by
  induction results generalizing out with
  | nil =>
    rw [filterResults] at h
    obtain rfl := Option.some.inj h
    exact ⟨rfl, List.Forall₂.nil⟩
  | cons gp rest ih =>
    obtain ⟨g, ps⟩ := gp
    rw [filterResults] at h
    cases hfp : filterPosts f ps with
    | none => simp [hfp] at h
    | some fp =>
      cases hfr : filterResults f rest with
      | none => simp [hfp, hfr] at h
      | some fr =>
        rw [hfp, hfr] at h
        simp only [Option.some_bind, Option.map_some] at h
        obtain rfl := Option.some.inj h
        obtain ⟨ihmap, ihrel⟩ := ih fr hfr
        refine ⟨?_, ?_⟩
        · simp [ihmap]
        · exact List.Forall₂.cons
            ⟨rfl, filterPosts_sublist f ps fp hfp⟩ ihrel

/-- Input for the C6 witness: the first group loses all its posts, the
second keeps one. -/
def shapeResults : List (String × List PostData) :=
  [("a", [lowScorePost]), ("b", [lowScorePost, highScorePost])]

/-- C6 witness: the shape statement evaluated on a pass that empties one
group entirely — the group's key survives with an empty sequence. -/
theorem c6_witness :
    filterResults scoreFilters shapeResults =
      some [("a", []), ("b", [highScorePost])] ∧
    ([("a", ([] : List PostData)), ("b", [highScorePost])].map Prod.fst =
      shapeResults.map Prod.fst ∧
    List.Forall₂ (fun gin gout => gin.1 = gout.1 ∧ gout.2.Sublist gin.2)
      shapeResults [("a", []), ("b", [highScorePost])]) :=
  ⟨by decide,
    c6_filter_shape scoreFilters shapeResults
      [("a", []), ("b", [highScorePost])] (by decide)⟩
